import Mathlib

/-!
Verification of the annual-wheel radial timeline layout engine.

Shallow embedding of the layout code in
src/teams-app/src/components/AnnualWheel.svelte and of the date/layer
helpers in src/teams-app/src/types/sharing.ts.

Modelling conventions:
* JS timestamps (Date.getTime(), milliseconds since the epoch) are modelled
  as exact rationals; calendar dates used by the week computations are
  modelled as integer day numbers (days since 1970-01-01, which is day 0,
  a Thursday).  JS number arithmetic on these quantities is exact for the
  sizes involved, so rationals are a faithful model (the one divergence,
  division by a zero layer count, is noted at its use site).
* The conversion between a civil (year, month, day) triple and a day
  number performed inside the JS Date runtime (Date.UTC / getUTCFullYear)
  is modelled with the standard proleptic-Gregorian civil-calendar
  algorithm, written with explicit floor/Euclidean divisions.
* SVG path strings and the trigonometric point placement
  (polarToCartesian, createArcPath) are presentation output that no claim
  touches; the geometric data they are built from (angles and radii) is
  modelled instead.
-/

/-- An activity as read by the layout engine (fields the layout never
reads - title, colors, type, createdBy and so on - are omitted).
startDate and endDate are timestamps in milliseconds. -/
structure Activity where
  id : String
  startDate : ℚ
  endDate : ℚ
  scope : String
deriving DecidableEq, Repr

/-- A layer (src/teams-app/src/types/sharing.ts), restricted to the fields
the wheel reads. -/
structure Layer where
  id : String
  name : String
  color : String
  ringIndex : ℤ
  isVisible : Bool
deriving DecidableEq, Repr

/-- ScopeConfig (src/teams-app/src/types/sharing.ts). -/
structure ScopeConfig where
  id : String
  label : String
  color : String
  ringIndex : ℤ
deriving DecidableEq, Repr

/-- layersToScopeConfigs: keep visible layers, sort ascending by ringIndex
(JS Array.prototype.sort with comparator a.ringIndex - b.ringIndex is a
stable ascending sort; for a total preorder comparator every stable sort
returns the same list, so the structural insertionSort is a faithful
model of it), project to ScopeConfig. -/
def layersToScopeConfigs (layers : List Layer) : List ScopeConfig :=
  ((layers.filter (fun l => l.isVisible)).insertionSort
      (fun a b => a.ringIndex ≤ b.ringIndex)).map
    (fun layer =>
      { id := layer.id, label := layer.name, color := layer.color,
        ringIndex := layer.ringIndex })

/-- getScopeConfigById (AnnualWheel.svelte): first config with the id, or
the grey fallback config with ringIndex 0. -/
def getScopeConfigById (scopeConfigs : List ScopeConfig) (scopeId : String) :
    ScopeConfig :=
  (scopeConfigs.find? (fun s => s.id == scopeId)).getD
    { id := scopeId, label := scopeId, color := "#888888", ringIndex := 0 }

/-- ScopeFilters is a Record<string, boolean>; an absent key is falsy in
the filter test, so the record is modelled as a total boolean function. -/
def filteredActivities (activities : List Activity)
    (scopeFilters : String → Bool) : List Activity :=
  activities.filter (fun a => scopeFilters a.scope)

/-- The sortedActivities comparator, as a boolean "less or equal":
comparator(a,b) = ringA - ringB when the rings differ, else
startA - startB; le a b holds iff comparator(a,b) ≤ 0. -/
def sortLE (scopeConfigs : List ScopeConfig) (a b : Activity) : Bool :=
  let scopeA := getScopeConfigById scopeConfigs a.scope
  let scopeB := getScopeConfigById scopeConfigs b.scope
  if scopeA.ringIndex ≠ scopeB.ringIndex then
    decide (scopeA.ringIndex < scopeB.ringIndex)
  else
    decide (a.startDate ≤ b.startDate)

/-- sortedActivities (AnnualWheel.svelte): stable sort of the filtered
activities by scope ring then start date (stable-sort model as in
layersToScopeConfigs). -/
def sortedActivities (activities : List Activity) (layers : List Layer)
    (scopeFilters : String → Bool) : List Activity :=
  (filteredActivities activities scopeFilters).insertionSort
    (fun a b => sortLE (layersToScopeConfigs layers) a b = true)

/-- maxSubLayers = 3: max overlapping activities per scope ring. -/
def maxSubLayers : ℕ := 3

/-- The overlap test of the allocation loop: some already-assigned entry
sits in sub-lane l and its inclusive date range meets the new activity
(newStart ≤ existing.end and newEnd ≥ existing.start). -/
def overlapsAt (assigned : List (Activity × ℕ)) (activity : Activity)
    (l : ℕ) : Bool :=
  assigned.any (fun a =>
    a.2 == l && decide (activity.startDate ≤ a.1.endDate) &&
      decide (activity.endDate ≥ a.1.startDate))

/-- The lane-scan loop (for l in 0..maxSubLayers-1): on an overlap at lane
l the running value becomes l + 1 and the scan continues; at the first
free lane the scan stops and returns it. -/
def laneScan (assigned : List (Activity × ℕ)) (activity : Activity) :
    List ℕ → ℕ → ℕ
  | [], subLayer => subLayer
  | l :: rest, _ =>
    if overlapsAt assigned activity l then
      laneScan assigned activity rest (l + 1)
    else l

/-- Sub-lane chosen for an activity given the already-assigned list:
the scan result clamped by subLayer = min(subLayer, maxSubLayers - 1). -/
def findSubLayer (assigned : List (Activity × ℕ)) (activity : Activity) : ℕ :=
  min (laneScan assigned activity (List.range maxSubLayers) 0)
    (maxSubLayers - 1)

/-- The per-scope forEach of activityLayers: each activity is appended to
the assigned list together with its chosen sub-lane. -/
def allocScope : List (Activity × ℕ) → List Activity → List (Activity × ℕ)
  | assigned, [] => assigned
  | assigned, activity :: rest =>
    allocScope (assigned ++ [(activity, findSubLayer assigned activity)]) rest

/-- activityLayers (AnnualWheel.svelte): for each scope config, allocate
sub-lanes to its activities (in sortedActivities order) and record
(activityId, scopeConfig.ringIndex, subLayer).  The JS Map is modelled as
this association list; activity ids are unique per the data model, so
each key is written at most once and first-match lookup agrees with the
Map. -/
def activityLayers (scopeConfigs : List ScopeConfig)
    (sortedActs : List Activity) : List (String × ℤ × ℕ) :=
  scopeConfigs.flatMap (fun scopeConfig =>
    (allocScope [] (sortedActs.filter (fun a => a.scope == scopeConfig.id))).map
      (fun p => (p.1.id, scopeConfig.ringIndex, p.2)))

/-- layerMap.get(activity.id) on the modelled map. -/
def lookupLayerInfo (m : List (String × ℤ × ℕ)) (id : String) :
    Option (ℤ × ℕ) :=
  (m.find? (fun e => e.1 == id)).map (fun e => e.2)

/-! Geometry constants of AnnualWheel.svelte. -/

def OUTER_RADIUS : ℚ := 280
def DAY_TICK_INNER : ℚ := OUTER_RADIUS - 8
def WEEK_RING_OUTER : ℚ := DAY_TICK_INNER - 2
def WEEK_RING_INNER : ℚ := WEEK_RING_OUTER - 20
def ACTIVITY_AREA_OUTER : ℚ := WEEK_RING_INNER - 5
def INNER_RADIUS : ℚ := 60
def FULL_VIEW_DAYS : ℚ := 365

/-- Milliseconds per day, the divisor 1000 * 60 * 60 * 24. -/
def msPerDay : ℚ := 1000 * 60 * 60 * 24

/-- dateToAngle: days difference from today (exact, millisecond based)
times 360/365 degrees per day. -/
def dateToAngle (today date : ℚ) : ℚ :=
  let daysDiff := (date - today) / msPerDay
  let degreesPerDay := 360 / FULL_VIEW_DAYS
  daysDiff * degreesPerDay

/-- fullYearStartDate: today shifted back FULL_VIEW_DAYS / 2 days.  The
source calls setDate(getDate() - 365 / 2); ECMAScript MakeDay truncates
the fractional day argument, so the shift is exactly 182 days. -/
def fullYearStartDate (today : ℚ) : ℚ := today - 182 * msPerDay

/-- fullYearEndDate: today shifted forward 182 days (same truncation). -/
def fullYearEndDate (today : ℚ) : ℚ := today + 182 * msPerDay

/-- minArcDegrees = 3: minimum angular span for visibility. -/
def minArcDegrees : ℚ := 3

/-- The angular span step of activityArcs: raw angles from the activity
dates, widened symmetrically about their midpoint to minArcDegrees when
the raw span is narrower. -/
def activitySpan (today : ℚ) (activity : Activity) : ℚ × ℚ :=
  let actStartAngle := dateToAngle today activity.startDate
  let actEndAngle := dateToAngle today activity.endDate
  if actEndAngle - actStartAngle < minArcDegrees then
    let midAngle := (actStartAngle + actEndAngle) / 2
    (midAngle - minArcDegrees / 2, midAngle + minArcDegrees / 2)
  else
    (actStartAngle, actEndAngle)

/-- One entry of the activityArcs output (the SVG path string is omitted;
it is a function of the four geometric fields kept here). -/
structure ActivityArc where
  activity : Activity
  scopeRing : ℤ
  subLayer : ℕ
  innerR : ℚ
  outerR : ℚ
  startAngle : ℚ
  endAngle : ℚ
deriving DecidableEq, Repr

/-- The per-activity arc construction inside activityArcs' map. -/
def buildArc (layerMap : List (String × ℤ × ℕ))
    (scopeRingThickness subLayerThickness : ℚ) (today : ℚ)
    (activity : Activity) : ActivityArc :=
  let layerInfo := (lookupLayerInfo layerMap activity.id).getD (0, 0)
  let scopeRingStart := INNER_RADIUS + 10 + (layerInfo.1 : ℚ) * scopeRingThickness
  let innerR := scopeRingStart + (layerInfo.2 : ℚ) * subLayerThickness
  let outerR := innerR + subLayerThickness - 2
  let span := activitySpan today activity
  { activity := activity, scopeRing := layerInfo.1, subLayer := layerInfo.2,
    innerR := innerR, outerR := outerR,
    startAngle := span.1, endAngle := span.2 }

/-- activityArcs (AnnualWheel.svelte).  SCOPE_RINGS is layers.length with
no clamping; in JS a zero layer count makes the thickness Infinity while
here rational division by zero yields 0 - no theorem below relies on the
value of the thickness in that case, only on which activities are kept.
Activities entirely outside the full-year window map to null and are
filtered out. -/
def activityArcs (layers : List Layer) (activities : List Activity)
    (scopeFilters : String → Bool) (today : ℚ) : List ActivityArc :=
  let scopeConfigs := layersToScopeConfigs layers
  let sorted := sortedActivities activities layers scopeFilters
  let layerMap := activityLayers scopeConfigs sorted
  let start := fullYearStartDate today
  let stop := fullYearEndDate today
  let totalRingSpace := ACTIVITY_AREA_OUTER - INNER_RADIUS - 10
  let scopeRingThickness := totalRingSpace / (layers.length : ℚ)
  let subLayerThickness := scopeRingThickness / 3
  sorted.filterMap (fun activity =>
    if activity.endDate < start ∨ activity.startDate > stop then none
    else some (buildArc layerMap scopeRingThickness subLayerThickness today activity))

/-- One scope ring background (path string omitted). -/
structure RingBackground where
  id : String
  color : String
  innerRadius : ℚ
  outerRadius : ℚ
deriving DecidableEq, Repr

/-- scopeRingBackgrounds (AnnualWheel.svelte): here the layer count is
clamped (layers.length || 1) and the band position is the index in the
ringIndex-sorted copy. -/
def scopeRingBackgrounds (layers : List Layer) : List RingBackground :=
  let totalRingSpace := ACTIVITY_AREA_OUTER - INNER_RADIUS - 10
  let scopeRingThickness :=
    totalRingSpace / (if layers.length = 0 then 1 else (layers.length : ℚ))
  let sortedLayers := layers.insertionSort (fun a b => a.ringIndex ≤ b.ringIndex)
  sortedLayers.enum.map (fun p =>
    let innerR := INNER_RADIUS + 10 + (p.1 : ℚ) * scopeRingThickness
    { id := p.2.id, color := p.2.color,
      innerRadius := innerR, outerRadius := innerR + scopeRingThickness - 1 })

/-- The targetRotation effect (AnnualWheel.svelte): 0 without a resolvable
highlight; otherwise rotate by -midAngle times the viewport factor when
the midpoint angle leaves the visible range. -/
def targetRotation (highlightedActivityId : Option String)
    (activities : List Activity) (isMobileView : Bool) (today : ℚ) : ℚ :=
  match highlightedActivityId with
  | none => 0
  | some hid =>
    match activities.find? (fun a => a.id == hid) with
    | none => 0
    | some highlightedActivity =>
      let actStartAngle := dateToAngle today highlightedActivity.startDate
      let actEndAngle := dateToAngle today highlightedActivity.endDate
      let midAngle := (actStartAngle + actEndAngle) / 2
      let visibleRange : ℚ := if isMobileView then 70 else 90
      if |midAngle| > visibleRange then
        (let rotationFactor : ℚ := (if isMobileView then 1 else 85 / 100);
          -midAngle * rotationFactor)
      else 0

/-! Calendar model for the week computations.  Day numbers count days
since 1970-01-01 (day 0, a Thursday). -/

/-- getUTCDay on a day number: 0 = Sunday .. 6 = Saturday (day 0 is a
Thursday; % on ℤ is Euclidean, hence nonnegative here). -/
def weekdayOf (g : ℤ) : ℤ := (g + 4) % 7

/-- Civil (proleptic Gregorian) date to day number, as computed by
Date.UTC(y, m-1, d).  All divisors are positive constants, so the
Euclidean / of ℤ used here is exactly the floor division the classic
algorithm needs (its C form writes (y >= 0 ? y : y - 399) / 400 to get
the very same value from a truncating division). -/
def daysFromCivil (y m d : ℤ) : ℤ :=
  let yAdj := if m ≤ 2 then y - 1 else y
  let era := yAdj / 400
  let yoe := yAdj - era * 400
  let mp := if m ≤ 2 then m + 9 else m - 3
  let doy := (153 * mp + 2) / 5 + d - 1
  let doe := yoe * 365 + yoe / 4 - yoe / 100 + doy
  era * 146097 + doe - 719468

/-- Day number back to the civil (year, month, day) triple
(getUTCFullYear and friends). -/
def civilFromDays (g : ℤ) : ℤ × ℤ × ℤ :=
  let z := g + 719468
  let era := z / 146097
  let doe := z - era * 146097
  let yoe := (doe - doe / 1460 + doe / 36524 - doe / 146096) / 365
  let y := yoe + era * 400
  let doy := doe - (365 * yoe + yoe / 4 - yoe / 100)
  let mp := (5 * doy + 2) / 153
  let d := doy - (153 * mp + 2) / 5 + 1
  let m := if mp < 10 then mp + 3 else mp - 9
  (if m ≤ 2 then y + 1 else y, m, d)

/-- getUTCFullYear on a day number. -/
def yearOfDays (g : ℤ) : ℤ := (civilFromDays g).1

/-- getWeekNumber (src/teams-app/src/types/sharing.ts) on a day number g:
dayNum = getUTCDay() || 7, shift by 4 - dayNum, then
ceil((daysSinceJan1OfThatYear + 1) / 7). -/
def getWeekNumberD (g : ℤ) : ℤ :=
  let dayNum := if weekdayOf g = 0 then 7 else weekdayOf g
  let t := g + (4 - dayNum)
  let yearStart := daysFromCivil (yearOfDays t) 1 1
  ⌈(((t - yearStart : ℤ) : ℚ) + 1) / 7⌉

/-- getWeekNumber on a civil date: the source rebuilds the UTC day from
the date's own (year, month, day) triple, which is the identity on day
numbers. -/
def getWeekNumber (y m d : ℤ) : ℤ := getWeekNumberD (daysFromCivil y m d)

/-- Modelled from the spec: the Monday on or before g (weeks start
Monday). -/
def mondayOnOrBefore (g : ℤ) : ℤ := g - (weekdayOf g + 6) % 7

/-- Modelled from the spec: the ISO week number of g - shift g to the
Thursday of its Monday-based week, then count weeks from that ISO year's
January 1st. -/
def isoWeekNumberD (g : ℤ) : ℤ :=
  let t := mondayOnOrBefore g + 3
  let yearStart := daysFromCivil (yearOfDays t) 1 1
  ⌈(((t - yearStart : ℤ) : ℚ) + 1) / 7⌉

/-- One entry of weekMarkers (angles and path omitted; weekEnd is the
date the end angle is taken from). -/
structure WeekMarker where
  weekNum : ℤ
  weekStart : ℤ
  weekEnd : ℤ
deriving DecidableEq, Repr

/-- The while loop of weekMarkers: all 7-day steps from cur while the
current date stays on or before endDay. -/
def weekStartsFrom (endDay : ℤ) (cur : ℤ) : List ℤ :=
  if cur ≤ endDay then cur :: weekStartsFrom endDay (cur + 7) else []
termination_by (endDay + 1 - cur).toNat
decreasing_by
  omega

/-- weekMarkers (AnnualWheel.svelte) on day numbers: back the start date
up to Monday (getDay() = 1; Sunday backs up 6 days, any other day
dayOfWeek - 1), then one marker per 7-day step through endDay. -/
def weekMarkers (startDay endDay : ℤ) : List WeekMarker :=
  let dayOfWeek := weekdayOf startDay
  let monday :=
    if dayOfWeek = 1 then startDay
    else startDay - (if dayOfWeek = 0 then 6 else dayOfWeek - 1)
  (weekStartsFrom endDay monday).map (fun w =>
    { weekNum := getWeekNumberD w, weekStart := w, weekEnd := w + 6 })

/-! Helper lemmas about the sub-lane scan and the per-scope allocation. -/

lemma range_maxSubLayers : List.range maxSubLayers = [0, 1, 2] := rfl

lemma laneScan_spec (assigned : List (Activity × ℕ)) (act : Activity) :
    laneScan assigned act (List.range maxSubLayers) 0 ≤ 3 ∧
    (laneScan assigned act (List.range maxSubLayers) 0 < 3 →
      overlapsAt assigned act (laneScan assigned act (List.range maxSubLayers) 0) = false) ∧
    ∀ l, l < laneScan assigned act (List.range maxSubLayers) 0 →
      overlapsAt assigned act l = true := by
  rw [range_maxSubLayers]
  rcases h0 : overlapsAt assigned act 0 <;> rcases h1 : overlapsAt assigned act 1 <;>
    rcases h2 : overlapsAt assigned act 2 <;>
      simp only [laneScan, h0, h1, h2, if_true, if_false, Bool.false_eq_true] <;>
      refine ⟨by omega, by simp [h0, h1, h2], ?_⟩ <;>
      (intro l hl; interval_cases l <;> simp [h0, h1, h2])

lemma findSubLayer_lt (assigned : List (Activity × ℕ)) (act : Activity) :
    findSubLayer assigned act < maxSubLayers := by
  unfold findSubLayer maxSubLayers
  omega

lemma findSubLayer_overlap (assigned : List (Activity × ℕ)) (act : Activity)
    (h : overlapsAt assigned act (findSubLayer assigned act) = true) :
    (∀ l, l < maxSubLayers → overlapsAt assigned act l = true) ∧
      findSubLayer assigned act = maxSubLayers - 1 := by
  obtain ⟨hle, hfree, hmin⟩ := laneScan_spec assigned act
  have hm : maxSubLayers = 3 := rfl
  by_cases hlt : laneScan assigned act (List.range maxSubLayers) 0 < 3
  · exfalso
    have hfs : findSubLayer assigned act =
        laneScan assigned act (List.range maxSubLayers) 0 := by
      unfold findSubLayer
      omega
    rw [hfs, hfree hlt] at h
    exact absurd h (by simp)
  · have hr3 : laneScan assigned act (List.range maxSubLayers) 0 = 3 := by omega
    have hfs : findSubLayer assigned act = maxSubLayers - 1 := by
      unfold findSubLayer
      omega
    exact ⟨fun l hl => hmin l (by omega), hfs⟩

lemma findSubLayer_first_free (assigned : List (Activity × ℕ)) (act : Activity)
    (h : ∃ l, l < maxSubLayers ∧ overlapsAt assigned act l = false) :
    overlapsAt assigned act (findSubLayer assigned act) = false ∧
      ∀ l, l < findSubLayer assigned act → overlapsAt assigned act l = true := by
  obtain ⟨hle, hfree, hmin⟩ := laneScan_spec assigned act
  obtain ⟨l, hl3, hlfree⟩ := h
  unfold findSubLayer maxSubLayers at *
  have hr : laneScan assigned act (List.range 3) 0 < 3 := by
    by_contra hcon
    have := hmin l (by omega)
    rw [this] at hlfree
    exact absurd hlfree (by simp)
  have heq : min (laneScan assigned act (List.range 3) 0) (3 - 1) =
      laneScan assigned act (List.range 3) 0 := by omega
  rw [heq]
  exact ⟨hfree hr, hmin⟩

lemma allocScope_extends (acts : List Activity) :
    ∀ assigned, ∃ tail, allocScope assigned acts = assigned ++ tail := by
  induction acts with
  | nil => exact fun assigned => ⟨[], by simp [allocScope]⟩
  | cons a rest ih =>
    intro assigned
    obtain ⟨tail, htail⟩ := ih (assigned ++ [(a, findSubLayer assigned a)])
    exact ⟨(a, findSubLayer assigned a) :: tail, by
      simp only [allocScope, htail, List.append_assoc, List.singleton_append]⟩

lemma allocScope_split (acts : List Activity) :
    ∀ (assigned pre post : List (Activity × ℕ)) (b : Activity) (lb : ℕ),
      allocScope assigned acts = pre ++ (b, lb) :: post →
      assigned.length ≤ pre.length →
      lb = findSubLayer pre b := by
  induction acts with
  | nil =>
    intro assigned pre post b lb heq hlen
    simp only [allocScope] at heq
    have := congrArg List.length heq
    simp at this
    omega
  | cons a rest ih =>
    intro assigned pre post b lb heq hlen
    simp only [allocScope] at heq
    by_cases hsplit : assigned.length + 1 ≤ pre.length
    · exact ih (assigned ++ [(a, findSubLayer assigned a)]) pre post b lb
        (by simpa using heq) (by simpa using hsplit)
    · have hplen : pre.length = assigned.length := by omega
      obtain ⟨tail, htail⟩ := allocScope_extends rest (assigned ++ [(a, findSubLayer assigned a)])
      rw [htail, List.append_assoc, List.singleton_append] at heq
      obtain ⟨hpre, hcons⟩ := List.append_inj heq hplen.symm
      have hhead : (a, findSubLayer assigned a) = (b, lb) := by
        have := congrArg (fun l => l.head?) hcons
        simpa using this
      have hb : a = b := congrArg Prod.fst hhead
      have hlb2 : findSubLayer assigned a = lb := congrArg Prod.snd hhead
      subst hb
      subst hpre
      exact hlb2.symm

/-- C1: within one band's allocation run, every activity is assigned the
first sub-lane (scanning 0..maxSubLayers-1) in which no previously
assigned activity overlaps it; two activities in the same sub-lane have
overlapping inclusive date ranges only when, at the later one's
assignment time, every one of the maxSubLayers = 3 lanes already held an
overlapping activity, in which case the later one was clamped to lane
maxSubLayers - 1 = 2. -/
theorem claim_C1 (scopeActs : List Activity) (pre post : List (Activity × ℕ))
    (b : Activity) (lb : ℕ)
    (hsplit : allocScope [] scopeActs = pre ++ (b, lb) :: post) :
    lb = findSubLayer pre b ∧
    ((∃ l, l < maxSubLayers ∧ overlapsAt pre b l = false) →
      overlapsAt pre b lb = false ∧ ∀ l, l < lb → overlapsAt pre b l = true) ∧
    (∀ p ∈ pre, p.2 = lb →
      b.startDate ≤ p.1.endDate → b.endDate ≥ p.1.startDate →
      (∀ l, l < maxSubLayers → overlapsAt pre b l = true) ∧ lb = maxSubLayers - 1) := by
  have hlb : lb = findSubLayer pre b :=
    allocScope_split scopeActs [] pre post b lb hsplit (by simp)
  refine ⟨hlb, ?_, ?_⟩
  · intro hex
    rw [hlb]
    exact findSubLayer_first_free pre b hex
  · intro p hp hlane hs he
    have hover : overlapsAt pre b lb = true := by
      unfold overlapsAt
      rw [List.any_eq_true]
      refine ⟨p, hp, ?_⟩
      simp [hlane, hs, he]
    rw [hlb] at hover ⊢
    exact findSubLayer_overlap pre b hover

/-- C2: the date-to-angle projection is exactly (days between today and
the date, millisecond exact) times 360/365 degrees; today maps to 0,
earlier dates map to strictly negative angles, later dates to strictly
positive angles, and the map is strictly monotone. -/
theorem claim_C2 (today d1 d2 : ℚ) :
    dateToAngle today today = 0 ∧
    dateToAngle today d1 = (d1 - today) / msPerDay * (360 / 365) ∧
    (d1 < today → dateToAngle today d1 < 0) ∧
    (today < d1 → 0 < dateToAngle today d1) ∧
    (d1 < d2 → dateToAngle today d1 < dateToAngle today d2) := by
  have hkey : ∀ x y : ℚ, dateToAngle today y - dateToAngle today x =
      (y - x) * (360 / (365 * msPerDay)) := by
    intro x y
    unfold dateToAngle msPerDay FULL_VIEW_DAYS
    ring
  have hpos : (0 : ℚ) < 360 / (365 * msPerDay) := by norm_num [msPerDay]
  refine ⟨by simp [dateToAngle], rfl, ?_, ?_, ?_⟩
  · intro h
    have h0 : dateToAngle today today = 0 := by simp [dateToAngle]
    have := hkey d1 today
    nlinarith
  · intro h
    have h0 : dateToAngle today today = 0 := by simp [dateToAngle]
    have := hkey today d1
    nlinarith
  · intro h
    have := hkey d1 d2
    nlinarith

/-- C2 witness: the projection at concrete dates one day before and one
day after a concrete today. -/
theorem claim_C2_witness :
    dateToAngle 0 (-86400000) < 0 ∧ 0 < dateToAngle 0 86400000 ∧
      dateToAngle 0 (-86400000) < dateToAngle 0 86400000 :=
  ⟨(claim_C2 0 (-86400000) 86400000).2.2.1 (by norm_num),
   (claim_C2 0 86400000 0).2.2.2.1 (by norm_num),
   (claim_C2 0 (-86400000) 86400000).2.2.2.2 (by norm_num)⟩

/-- Four mutually overlapping activities in one scope, used to exercise
the lane clamp concretely. -/
def c1a : Activity := ⟨"a", 0, 10, "L"⟩
def c1b : Activity := ⟨"b", 0, 10, "L"⟩
def c1c : Activity := ⟨"c", 0, 10, "L"⟩
def c1d : Activity := ⟨"d", 0, 10, "L"⟩

/-- C1 witness: with three overlapping activities already filling lanes
0, 1 and 2, a fourth overlapping one is clamped to lane 2 after every
lane was found occupied. -/
theorem claim_C1_witness :
    (∀ l, l < maxSubLayers →
      overlapsAt [(c1a, 0), (c1b, 1), (c1c, 2)] c1d l = true) ∧
    (2 : ℕ) = maxSubLayers - 1 :=
  (claim_C1 [c1a, c1b, c1c, c1d] [(c1a, 0), (c1b, 1), (c1c, 2)] [] c1d 2
      (by norm_num [allocScope, findSubLayer, laneScan, overlapsAt,
        range_maxSubLayers, maxSubLayers, c1a, c1b, c1c, c1d, List.any])).2.2
    (c1c, 2) (by simp) rfl (by norm_num [c1c, c1d]) (by norm_num [c1c, c1d])

/-- Membership in activityArcs: exactly the sorted activities that meet
the full-year window, each mapped through buildArc. -/
lemma mem_activityArcs (layers : List Layer) (acts : List Activity)
    (filters : String → Bool) (today : ℚ) (arc : ActivityArc) :
    arc ∈ activityArcs layers acts filters today ↔
    ∃ activity, activity ∈ sortedActivities acts layers filters ∧
      ¬(activity.endDate < fullYearStartDate today ∨
        activity.startDate > fullYearEndDate today) ∧
      arc = buildArc
        (activityLayers (layersToScopeConfigs layers) (sortedActivities acts layers filters))
        ((ACTIVITY_AREA_OUTER - INNER_RADIUS - 10) / (layers.length : ℚ))
        ((ACTIVITY_AREA_OUTER - INNER_RADIUS - 10) / (layers.length : ℚ) / 3)
        today activity := by
  simp only [activityArcs, List.mem_filterMap]
  constructor
  · rintro ⟨a, ha, hfa⟩
    by_cases hc : a.endDate < fullYearStartDate today ∨ a.startDate > fullYearEndDate today
    · rw [if_pos hc] at hfa
      exact absurd hfa (by simp)
    · rw [if_neg hc] at hfa
      obtain rfl := Option.some.inj hfa
      exact ⟨a, ha, hc, rfl⟩
  · rintro ⟨a, ha, hc, rfl⟩
    exact ⟨a, ha, by rw [if_neg hc]⟩

/-- The activity recorded in a buildArc result is the argument itself. -/
lemma buildArc_activity (layerMap : List (String × ℤ × ℕ))
    (t s today : ℚ) (activity : Activity) :
    (buildArc layerMap t s today activity).activity = activity := rfl

/-- C4: every arc kept in activityArcs spans at least minArcDegrees = 3
degrees; when the raw angular span (including an inverted one) is below
3 degrees it is widened symmetrically about the midpoint of the raw
angles to exactly 3 degrees, and otherwise the raw angles are kept
unchanged; no input is rejected. -/
theorem claim_C4 (layers : List Layer) (acts : List Activity)
    (filters : String → Bool) (today : ℚ) (arc : ActivityArc)
    (hmem : arc ∈ activityArcs layers acts filters today) :
    minArcDegrees ≤ arc.endAngle - arc.startAngle ∧
    (dateToAngle today arc.activity.endDate -
        dateToAngle today arc.activity.startDate < minArcDegrees →
      arc.endAngle - arc.startAngle = minArcDegrees ∧
      arc.startAngle + arc.endAngle =
        dateToAngle today arc.activity.startDate +
          dateToAngle today arc.activity.endDate) ∧
    (minArcDegrees ≤ dateToAngle today arc.activity.endDate -
        dateToAngle today arc.activity.startDate →
      arc.startAngle = dateToAngle today arc.activity.startDate ∧
      arc.endAngle = dateToAngle today arc.activity.endDate) := by
  obtain ⟨a, -, -, rfl⟩ := (mem_activityArcs layers acts filters today arc).mp hmem
  simp only [buildArc, buildArc_activity]
  by_cases h : dateToAngle today a.endDate - dateToAngle today a.startDate < minArcDegrees
  · simp only [activitySpan, if_pos h]
    refine ⟨by norm_num [minArcDegrees], fun _ => ⟨by ring, by ring⟩, fun hcon => ?_⟩
    exact absurd h (by simp only [not_lt]; exact hcon)
  · simp only [activitySpan, if_neg h]
    push_neg at h
    refine ⟨by linarith, fun hcon => absurd hcon (by simp only [not_lt]; linarith),
      fun _ => ?_⟩
    simp

/-- A single layer and a single one-day activity in it, shared by several
concrete checks. -/
def wLayer : Layer := ⟨"L0", "Layer zero", "#111111", 0, true⟩
def wAct : Activity := ⟨"A", 0, 0, "L0"⟩

/-- The arc that the wheel computes for wAct alone on wLayer at today = 0. -/
def wArc : ActivityArc := ⟨wAct, 0, 0, 70, 175 / 3 + 68, -(3 / 2), 3 / 2⟩

lemma wheel_wAct_eval :
    activityArcs [wLayer] [wAct] (fun _ => true) 0 = [wArc] := by
  norm_num [activityArcs, sortedActivities, filteredActivities, layersToScopeConfigs,
    sortLE, activityLayers, allocScope, findSubLayer, laneScan, overlapsAt,
    lookupLayerInfo, buildArc, activitySpan, dateToAngle, fullYearStartDate,
    fullYearEndDate, msPerDay, minArcDegrees, getScopeConfigById, maxSubLayers,
    INNER_RADIUS, ACTIVITY_AREA_OUTER, WEEK_RING_INNER, WEEK_RING_OUTER,
    DAY_TICK_INNER, OUTER_RADIUS, FULL_VIEW_DAYS, wLayer, wAct, wArc,
    List.insertionSort, List.orderedInsert, List.filterMap, List.filter,
    List.flatMap, List.find?, range_maxSubLayers]

/-- C4 witness: the zero-length activity wAct is widened to exactly the
3-degree minimum span. -/
theorem claim_C4_witness :
    minArcDegrees ≤ wArc.endAngle - wArc.startAngle ∧
    wArc.endAngle - wArc.startAngle = minArcDegrees ∧
    wArc.startAngle + wArc.endAngle =
      dateToAngle 0 wArc.activity.startDate + dateToAngle 0 wArc.activity.endDate := by
  have h := claim_C4 [wLayer] [wAct] (fun _ => true) 0 wArc
    (by rw [wheel_wAct_eval]; exact List.mem_singleton.mpr rfl)
  refine ⟨h.1, h.2.1 ?_⟩
  norm_num [wArc, wAct, dateToAngle, minArcDegrees]

/-- C5: the focus rotation is 0 with no highlighted id or an id absent
from the activity set; otherwise, with midAngle the mean of the start and
end angles, it is 0 when |midAngle| is within the visible range (70
degrees on the compact viewport, 90 on the full one) and
-midAngle * factor beyond it, with factor 1 compact and 0.85 full. -/
theorem claim_C5 (acts : List Activity) (isMobileView : Bool) (today : ℚ) :
    targetRotation none acts isMobileView today = 0 ∧
    (∀ hid, acts.find? (fun a => a.id == hid) = none →
      targetRotation (some hid) acts isMobileView today = 0) ∧
    (∀ hid a, acts.find? (fun a => a.id == hid) = some a →
      (|(dateToAngle today a.startDate + dateToAngle today a.endDate) / 2| ≤
          (if isMobileView then (70 : ℚ) else 90) →
        targetRotation (some hid) acts isMobileView today = 0) ∧
      ((if isMobileView then (70 : ℚ) else 90) <
          |(dateToAngle today a.startDate + dateToAngle today a.endDate) / 2| →
        targetRotation (some hid) acts isMobileView today =
          -((dateToAngle today a.startDate + dateToAngle today a.endDate) / 2) *
            (if isMobileView then 1 else 85 / 100))) := by
  refine ⟨rfl, fun hid hnone => ?_, fun hid a hfound => ⟨fun hin => ?_, fun hout => ?_⟩⟩
  · simp only [targetRotation, hnone]
  · simp only [targetRotation, hfound]
    rw [if_neg (by simpa using hin)]
  · simp only [targetRotation, hfound]
    rw [if_pos (by simpa using hout)]

/-- The concrete 150-degree-midpoint activity of the worked example. -/
def rotAct : Activity := ⟨"H", 13140000000, 13140000000, "L0"⟩

/-- C5 witness: a highlighted activity at midpoint angle 150 on the full
viewport rotates by -150 times 0.85 = -127.5 degrees. -/
theorem claim_C5_witness :
    targetRotation (some "H") [rotAct] false 0 = -(255 / 2) := by
  have h := ((claim_C5 [rotAct] false 0).2.2 "H" rotAct
    (by simp [List.find?, rotAct])).2
  have hmid : (dateToAngle 0 rotAct.startDate + dateToAngle 0 rotAct.endDate) / 2 = 150 := by
    norm_num [dateToAngle, rotAct, msPerDay, FULL_VIEW_DAYS]
  rw [hmid] at h
  have := h (by norm_num)
  rw [this]
  norm_num

/-- Every lane stored by the per-scope allocation is below maxSubLayers. -/
lemma allocScope_lane_lt (acts : List Activity) :
    ∀ assigned, (∀ p ∈ assigned, p.2 < maxSubLayers) →
      ∀ p ∈ allocScope assigned acts, p.2 < maxSubLayers := by
  induction acts with
  | nil => exact fun assigned h p hp => h p (by simpa [allocScope] using hp)
  | cons a rest ih =>
    intro assigned h p hp
    simp only [allocScope] at hp
    refine ih (assigned ++ [(a, findSubLayer assigned a)]) ?_ p hp
    intro q hq
    rcases List.mem_append.mp hq with hq | hq
    · exact h q hq
    · obtain rfl : q = (a, findSubLayer assigned a) := by simpa using hq
      exact findSubLayer_lt assigned a

/-- Every entry of the layer map carries the ringIndex of one of the
scope configs and a lane below maxSubLayers. -/
lemma activityLayers_entry (scopeConfigs : List ScopeConfig)
    (sortedActs : List Activity) (e : String × ℤ × ℕ)
    (he : e ∈ activityLayers scopeConfigs sortedActs) :
    ∃ cfg ∈ scopeConfigs, e.2.1 = cfg.ringIndex ∧ e.2.2 < maxSubLayers := by
  simp only [activityLayers, List.mem_flatMap, List.mem_map] at he
  obtain ⟨cfg, hcfg, p, hp, rfl⟩ := he
  exact ⟨cfg, hcfg, rfl, allocScope_lane_lt _ [] (by simp) p hp⟩

/-- Bounds for a successful layer-map lookup. -/
lemma lookupLayerInfo_bounds (scopeConfigs : List ScopeConfig)
    (sortedActs : List Activity) (id : String) (r : ℤ) (s : ℕ)
    (h : lookupLayerInfo (activityLayers scopeConfigs sortedActs) id = some (r, s)) :
    ∃ cfg ∈ scopeConfigs, r = cfg.ringIndex ∧ s < maxSubLayers := by
  simp only [lookupLayerInfo, Option.map_eq_some'] at h
  obtain ⟨e, he, h2⟩ := h
  have hmem := List.mem_of_find?_eq_some he
  obtain ⟨cfg, hcfg, h1, hlt⟩ := activityLayers_entry scopeConfigs sortedActs e hmem
  rw [h2] at h1 hlt
  exact ⟨cfg, hcfg, h1, hlt⟩

/-- A second visible layer with the non-contiguous ringIndex 2, and an
activity on it. -/
def ncLayer2 : Layer := ⟨"L2", "Layer two", "#222222", 2, true⟩
def ncAct : Activity := ⟨"A2", 0, 0, "L2"⟩

/-- C3 counterexample: with two visible layers of ringIndex 0 and 2, the
layer of ringIndex 2 sits at position 1 of the sorted layer order, yet
its activity is placed in band 2 (the raw ringIndex), whose inner radius
245 already reaches ACTIVITY_AREA_OUTER - outside every one of the
layerCount bands between the inner and outer radius. -/
theorem claim_C3_counterexample :
    (layersToScopeConfigs [wLayer, ncLayer2]).map (fun c => c.id) = ["L0", "L2"] ∧
    activityArcs [wLayer, ncLayer2] [ncAct] (fun _ => true) 0 =
      [⟨ncAct, 2, 0, 245, 1633 / 6, -(3 / 2), 3 / 2⟩] ∧
    ¬((2 : ℤ) = 1) ∧ ¬((245 : ℚ) < ACTIVITY_AREA_OUTER) := by
  refine ⟨?_, ?_, by norm_num,
    by norm_num [ACTIVITY_AREA_OUTER, WEEK_RING_INNER, WEEK_RING_OUTER,
      DAY_TICK_INNER, OUTER_RADIUS]⟩ <;>
  norm_num [activityArcs, sortedActivities, filteredActivities, layersToScopeConfigs,
    sortLE, activityLayers, allocScope, findSubLayer, laneScan, overlapsAt,
    lookupLayerInfo, buildArc, activitySpan, dateToAngle, fullYearStartDate,
    fullYearEndDate, msPerDay, minArcDegrees, getScopeConfigById, maxSubLayers,
    INNER_RADIUS, ACTIVITY_AREA_OUTER, WEEK_RING_INNER, WEEK_RING_OUTER,
    DAY_TICK_INNER, OUTER_RADIUS, FULL_VIEW_DAYS, wLayer, ncLayer2, ncAct,
    List.insertionSort, List.orderedInsert, List.filterMap, List.filter,
    List.flatMap, List.find?, range_maxSubLayers]
lemma arc_radius_bounds (n : ℕ) (r : ℤ) (s : ℕ) (hn : 0 < n)
    (hr0 : 0 ≤ r) (hr : r < (n : ℤ)) (hs : s < 3) :
    (60 : ℚ) ≤ 70 + (r : ℚ) * (175 / (n : ℚ)) + (s : ℚ) * (175 / (n : ℚ) / 3) ∧
    70 + (r : ℚ) * (175 / (n : ℚ)) + (s : ℚ) * (175 / (n : ℚ) / 3) +
      175 / (n : ℚ) / 3 - 2 ≤ 245 := by
  have hn1 : (1 : ℚ) ≤ (n : ℚ) := by exact_mod_cast hn
  have hT : (0 : ℚ) < 175 / (n : ℚ) := by positivity
  have hrq : (r : ℚ) ≤ (n : ℚ) - 1 := by
    have h1 : r ≤ (n : ℤ) - 1 := by omega
    have h2 : ((r : ℚ)) ≤ (((n : ℤ) - 1 : ℤ) : ℚ) := by exact_mod_cast h1
    push_cast at h2
    exact h2
  have hr0q : (0 : ℚ) ≤ (r : ℚ) := by exact_mod_cast hr0
  have hsq : (s : ℚ) ≤ 2 := by exact_mod_cast Nat.lt_succ_iff.mp hs
  have hs0 : (0 : ℚ) ≤ (s : ℚ) := by positivity
  have hmul : (n : ℚ) * (175 / (n : ℚ)) = 175 := by
    field_simp
  constructor
  · nlinarith
  · nlinarith [mul_le_mul_of_nonneg_right hrq hT.le,
      mul_le_mul_of_nonneg_right hsq (by positivity : (0 : ℚ) ≤ 175 / (n : ℚ) / 3)]



theorem claim_C3_amended (layers : List Layer) (acts : List Activity)
    (filters : String → Bool) (today : ℚ) (arc : ActivityArc)
    (hmem : arc ∈ activityArcs layers acts filters today)
    (hn : 0 < layers.length)
    (hring : ∀ cfg ∈ layersToScopeConfigs layers,
      0 ≤ cfg.ringIndex ∧ cfg.ringIndex < (layers.length : ℤ)) :
    ((∃ cfg ∈ layersToScopeConfigs layers, arc.scopeRing = cfg.ringIndex) ∨
      (arc.scopeRing = 0 ∧ arc.subLayer = 0)) ∧
    0 ≤ arc.scopeRing ∧ arc.scopeRing < (layers.length : ℤ) ∧
    arc.subLayer < maxSubLayers ∧
    INNER_RADIUS ≤ arc.innerR ∧ arc.outerR ≤ ACTIVITY_AREA_OUTER := by
  obtain ⟨a, -, -, rfl⟩ := (mem_activityArcs layers acts filters today arc).mp hmem
  have hA : ACTIVITY_AREA_OUTER = 245 := by
    norm_num [ACTIVITY_AREA_OUTER, WEEK_RING_INNER, WEEK_RING_OUTER, DAY_TICK_INNER,
      OUTER_RADIUS]
  have hI : INNER_RADIUS = 60 := rfl
  have h175 : ((245 : ℚ) - 60 - 10) = 175 := by norm_num
  rcases hli : lookupLayerInfo
      (activityLayers (layersToScopeConfigs layers) (sortedActivities acts layers filters))
      a.id with - | ⟨r, s⟩
  · obtain ⟨hb1, hb2⟩ := arc_radius_bounds layers.length 0 0 hn le_rfl
      (by exact_mod_cast hn) (by norm_num)
    have hin : (buildArc
        (activityLayers (layersToScopeConfigs layers) (sortedActivities acts layers filters))
        ((ACTIVITY_AREA_OUTER - INNER_RADIUS - 10) / (layers.length : ℚ))
        ((ACTIVITY_AREA_OUTER - INNER_RADIUS - 10) / (layers.length : ℚ) / 3)
        today a).innerR = INNER_RADIUS + 10 +
          ((0 : ℤ) : ℚ) * ((ACTIVITY_AREA_OUTER - INNER_RADIUS - 10) / (layers.length : ℚ)) +
          ((0 : ℕ) : ℚ) * ((ACTIVITY_AREA_OUTER - INNER_RADIUS - 10) / (layers.length : ℚ) / 3) := by
      simp [buildArc, hli]
    have hout : (buildArc
        (activityLayers (layersToScopeConfigs layers) (sortedActivities acts layers filters))
        ((ACTIVITY_AREA_OUTER - INNER_RADIUS - 10) / (layers.length : ℚ))
        ((ACTIVITY_AREA_OUTER - INNER_RADIUS - 10) / (layers.length : ℚ) / 3)
        today a).outerR = INNER_RADIUS + 10 +
          ((0 : ℤ) : ℚ) * ((ACTIVITY_AREA_OUTER - INNER_RADIUS - 10) / (layers.length : ℚ)) +
          ((0 : ℕ) : ℚ) * ((ACTIVITY_AREA_OUTER - INNER_RADIUS - 10) / (layers.length : ℚ) / 3) +
          (ACTIVITY_AREA_OUTER - INNER_RADIUS - 10) / (layers.length : ℚ) / 3 - 2 := by
      simp [buildArc, hli]
    refine ⟨Or.inr ⟨by simp [buildArc, hli], by simp [buildArc, hli]⟩,
      by simp [buildArc, hli], by simp [buildArc, hli]; exact_mod_cast hn,
      by simp [buildArc, hli, maxSubLayers], ?_, ?_⟩
    · rw [hin, hA, hI, h175]
      push_cast
      linarith [hb1]
    · rw [hout, hA, hI, h175]
      push_cast
      linarith [hb2]
  · obtain ⟨cfg, hcfg, hrc, hslt⟩ := lookupLayerInfo_bounds _ _ _ _ _ hli
    obtain ⟨hc0, hcn⟩ := hring cfg hcfg
    have hr0 : 0 ≤ r := hrc ▸ hc0
    have hrn : r < (layers.length : ℤ) := hrc ▸ hcn
    obtain ⟨hb1, hb2⟩ := arc_radius_bounds layers.length r s hn hr0 hrn
      (by simpa [maxSubLayers] using hslt)
    have hin : (buildArc
        (activityLayers (layersToScopeConfigs layers) (sortedActivities acts layers filters))
        ((ACTIVITY_AREA_OUTER - INNER_RADIUS - 10) / (layers.length : ℚ))
        ((ACTIVITY_AREA_OUTER - INNER_RADIUS - 10) / (layers.length : ℚ) / 3)
        today a).innerR = INNER_RADIUS + 10 +
          ((r : ℤ) : ℚ) * ((ACTIVITY_AREA_OUTER - INNER_RADIUS - 10) / (layers.length : ℚ)) +
          ((s : ℕ) : ℚ) * ((ACTIVITY_AREA_OUTER - INNER_RADIUS - 10) / (layers.length : ℚ) / 3) := by
      simp [buildArc, hli]
    have hout : (buildArc
        (activityLayers (layersToScopeConfigs layers) (sortedActivities acts layers filters))
        ((ACTIVITY_AREA_OUTER - INNER_RADIUS - 10) / (layers.length : ℚ))
        ((ACTIVITY_AREA_OUTER - INNER_RADIUS - 10) / (layers.length : ℚ) / 3)
        today a).outerR = INNER_RADIUS + 10 +
          ((r : ℤ) : ℚ) * ((ACTIVITY_AREA_OUTER - INNER_RADIUS - 10) / (layers.length : ℚ)) +
          ((s : ℕ) : ℚ) * ((ACTIVITY_AREA_OUTER - INNER_RADIUS - 10) / (layers.length : ℚ) / 3) +
          (ACTIVITY_AREA_OUTER - INNER_RADIUS - 10) / (layers.length : ℚ) / 3 - 2 := by
      simp [buildArc, hli]
    refine ⟨Or.inl ⟨cfg, hcfg, by simp [buildArc, hli, hrc]⟩,
      by simp [buildArc, hli]; exact hr0, by simp [buildArc, hli]; exact hrn,
      by simp [buildArc, hli]; exact hslt, ?_, ?_⟩
    · rw [hin, hA, hI, h175]
      linarith [hb1]
    · rw [hout, hA, hI, h175]
      linarith [hb2]


/-- A contiguous second layer (ringIndex 1) and an activity on it. -/
def mLayer : Layer := ⟨"L1", "Layer one", "#333333", 1, true⟩
def mAct : Activity := ⟨"M", 0, 0, "L1"⟩

/-- The arc computed for mAct on the two contiguous layers at today = 0. -/
def mArc : ActivityArc := ⟨mAct, 1, 0, 315 / 2, 554 / 3, -(3 / 2), 3 / 2⟩

lemma wheel_mAct_eval :
    activityArcs [wLayer, mLayer] [mAct] (fun _ => true) 0 = [mArc] := by
  norm_num [activityArcs, sortedActivities, filteredActivities, layersToScopeConfigs,
    sortLE, activityLayers, allocScope, findSubLayer, laneScan, overlapsAt,
    lookupLayerInfo, buildArc, activitySpan, dateToAngle, fullYearStartDate,
    fullYearEndDate, msPerDay, minArcDegrees, getScopeConfigById, maxSubLayers,
    INNER_RADIUS, ACTIVITY_AREA_OUTER, WEEK_RING_INNER, WEEK_RING_OUTER,
    DAY_TICK_INNER, OUTER_RADIUS, FULL_VIEW_DAYS, wLayer, mLayer, mAct, mArc,
    List.insertionSort, List.orderedInsert, List.filterMap, List.filter,
    List.flatMap, List.find?, range_maxSubLayers]

/-- C3 amended witness: with contiguous ringIndexes 0 and 1 the placed
arc stays between the inner radius and the activity-area edge. -/
theorem claim_C3_amended_witness :
    0 ≤ mArc.scopeRing ∧ mArc.scopeRing < (([wLayer, mLayer] : List Layer).length : ℤ) ∧
    INNER_RADIUS ≤ mArc.innerR ∧ mArc.outerR ≤ ACTIVITY_AREA_OUTER := by
  have h := claim_C3_amended [wLayer, mLayer] [mAct] (fun _ => true) 0 mArc
    (by rw [wheel_mAct_eval]; exact List.mem_singleton.mpr rfl)
    (by norm_num)
    (by
      intro cfg hcfg
      have : layersToScopeConfigs [wLayer, mLayer] =
          [⟨"L0", "Layer zero", "#111111", 0⟩, ⟨"L1", "Layer one", "#333333", 1⟩] := by
        norm_num [layersToScopeConfigs, wLayer, mLayer, List.insertionSort,
          List.orderedInsert, List.filter]
      rw [this] at hcfg
      simp only [List.mem_cons, List.not_mem_nil, or_false] at hcfg
      rcases hcfg with rfl | rfl <;> norm_num)
  exact ⟨h.2.1, h.2.2.1, h.2.2.2.2.1, h.2.2.2.2.2⟩

/-! C6: the full-year window filter. -/

/-- The example activity spanning 2024-12-20 .. 2024-12-22. -/
def c6Act : Activity :=
  ⟨"X", ((daysFromCivil 2024 12 20 : ℤ) : ℚ) * msPerDay,
    ((daysFromCivil 2024 12 22 : ℤ) : ℚ) * msPerDay, "L0"⟩

/-- The example "today", 2025-06-15 (midnight). -/
def c6Today : ℚ := ((daysFromCivil 2025 6 15 : ℤ) : ℚ) * msPerDay

/-- An activity spanning 2024-12-10 .. 2024-12-12, genuinely more than
182 days before the example today. -/
def c6ActB : Activity :=
  ⟨"Y", ((daysFromCivil 2024 12 10 : ℤ) : ℚ) * msPerDay,
    ((daysFromCivil 2024 12 12 : ℤ) : ℚ) * msPerDay, "L0"⟩

/-- C6 counterexample: with today = 2025-06-15, the activity spanning
2024-12-20..2024-12-22 lies only 177 days before today - inside the
182-day half window - so it is kept in activityArcs, not excluded as the
claim states. -/
theorem claim_C6_counterexample :
    daysFromCivil 2025 6 15 - daysFromCivil 2024 12 20 = 177 ∧
    (activityArcs [wLayer] [c6Act] (fun _ => true) c6Today).map
      (fun arc => arc.activity.id) = ["X"] ∧
    ¬(c6Act.endDate < fullYearStartDate c6Today ∨
      c6Act.startDate > fullYearEndDate c6Today) := by
  have h15 : daysFromCivil 2025 6 15 = 20254 := by decide
  have h20 : daysFromCivil 2024 12 20 = 20077 := by decide
  have h22 : daysFromCivil 2024 12 22 = 20079 := by decide
  refine ⟨by decide, ?_, ?_⟩
  · norm_num [activityArcs, sortedActivities, filteredActivities, layersToScopeConfigs,
      sortLE, activityLayers, allocScope, findSubLayer, laneScan, overlapsAt,
      lookupLayerInfo, buildArc, activitySpan, dateToAngle, fullYearStartDate,
      fullYearEndDate, msPerDay, minArcDegrees, getScopeConfigById, maxSubLayers,
      INNER_RADIUS, ACTIVITY_AREA_OUTER, WEEK_RING_INNER, WEEK_RING_OUTER,
      DAY_TICK_INNER, OUTER_RADIUS, FULL_VIEW_DAYS, wLayer, c6Act, c6Today,
      h15, h20, h22, List.insertionSort, List.orderedInsert, List.filterMap,
      List.filter, List.flatMap, List.find?, range_maxSubLayers]
  · norm_num [c6Act, c6Today, fullYearStartDate, fullYearEndDate, msPerDay,
      h15, h20, h22]

/-- C6 amended: an activity of the sorted list is kept in activityArcs
exactly when it meets the full-year window (not endDate < today - 182d
and not startDate > today + 182d); the 2024-12-20..22 example is only 177
days before today = 2025-06-15 and is kept, while an activity spanning
2024-12-10..2024-12-12 (ending 185 days before) is excluded. -/
theorem claim_C6_amended (layers : List Layer) (acts : List Activity)
    (filters : String → Bool) (today : ℚ) (a : Activity)
    (ha : a ∈ sortedActivities acts layers filters) :
    ((∃ arc ∈ activityArcs layers acts filters today, arc.activity = a) ↔
      ¬(a.endDate < fullYearStartDate today ∨ a.startDate > fullYearEndDate today)) ∧
    activityArcs [wLayer] [c6ActB] (fun _ => true) c6Today = [] := by
  constructor
  · constructor
    · rintro ⟨arc, harc, hact⟩
      obtain ⟨b, -, hb, rfl⟩ := (mem_activityArcs layers acts filters today arc).mp harc
      rw [buildArc_activity] at hact
      subst hact
      exact hb
    · intro hwin
      refine ⟨buildArc
        (activityLayers (layersToScopeConfigs layers) (sortedActivities acts layers filters))
        ((ACTIVITY_AREA_OUTER - INNER_RADIUS - 10) / (layers.length : ℚ))
        ((ACTIVITY_AREA_OUTER - INNER_RADIUS - 10) / (layers.length : ℚ) / 3)
        today a, ?_, buildArc_activity _ _ _ _ _⟩
      exact (mem_activityArcs layers acts filters today _).mpr ⟨a, ha, hwin, rfl⟩
  · have h15 : daysFromCivil 2025 6 15 = 20254 := by decide
    have h10 : daysFromCivil 2024 12 10 = 20067 := by decide
    have h12 : daysFromCivil 2024 12 12 = 20069 := by decide
    norm_num [activityArcs, sortedActivities, filteredActivities, layersToScopeConfigs,
      sortLE, activityLayers, allocScope, findSubLayer, laneScan, overlapsAt,
      lookupLayerInfo, buildArc, activitySpan, dateToAngle, fullYearStartDate,
      fullYearEndDate, msPerDay, minArcDegrees, getScopeConfigById, maxSubLayers,
      INNER_RADIUS, ACTIVITY_AREA_OUTER, WEEK_RING_INNER, WEEK_RING_OUTER,
      DAY_TICK_INNER, OUTER_RADIUS, FULL_VIEW_DAYS, wLayer, c6ActB, c6Today,
      h15, h10, h12, List.insertionSort, List.orderedInsert, List.filterMap,
      List.filter, List.flatMap, List.find?, range_maxSubLayers]

/-- C6 witness: the window rule applied to a concrete in-window activity
keeps it in the output. -/
theorem claim_C6_amended_witness :
    ∃ arc ∈ activityArcs [wLayer] [wAct] (fun _ => true) 0, arc.activity = wAct := by
  have h := claim_C6_amended [wLayer] [wAct] (fun _ => true) 0 wAct
    (by simp [sortedActivities, filteredActivities, List.insertionSort])
  exact h.1.mpr (by norm_num [wAct, fullYearStartDate, fullYearEndDate, msPerDay])

/-! C7: zero layers. -/

/-- C7 counterexample: with zero layers but an activity passing the scope
filter and the window, the activity-arc list is not empty (in JS the
unclamped division 175 / 0 meanwhile produces Infinity radii; the entry
is emitted either way). -/
theorem claim_C7_counterexample :
    activityArcs [] [wAct] (fun _ => true) 0 ≠ [] := by
  norm_num [activityArcs, sortedActivities, filteredActivities, layersToScopeConfigs,
    sortLE, activityLayers, allocScope, findSubLayer, laneScan, overlapsAt,
    lookupLayerInfo, buildArc, activitySpan, dateToAngle, fullYearStartDate,
    fullYearEndDate, msPerDay, minArcDegrees, getScopeConfigById, maxSubLayers,
    INNER_RADIUS, ACTIVITY_AREA_OUTER, WEEK_RING_INNER, WEEK_RING_OUTER,
    DAY_TICK_INNER, OUTER_RADIUS, FULL_VIEW_DAYS, wLayer, wAct,
    List.insertionSort, List.orderedInsert, List.filterMap, List.filter,
    List.flatMap, List.find?, range_maxSubLayers]

/-- Counting helper: a filterMap that drops exactly the elements failing
a predicate keeps as many elements as the matching filter. -/
lemma length_filterMap_window {α β : Type} (l : List α) (p : α → Prop)
    [DecidablePred p] (g : α → β) :
    (l.filterMap (fun a => if p a then none else some (g a))).length =
      (l.filter (fun a => decide (¬p a))).length := by
  induction l with
  | nil => simp
  | cons a rest ih =>
    by_cases h : p a <;> simp [h, ih]

/-- C7 amended: with zero layers the activity-arc list still contains one
entry per scope-filter-passing, in-window activity (each with the default
band 0 and sub-lane 0, and radii computed from the unclamped division by
the zero layer count - Infinity/NaN in JS, harmless here); the list is
empty iff no activity passes, in particular for an empty activity set;
the ring backgrounds, whose layer count IS clamped to 1, are empty. -/
theorem claim_C7_amended (acts : List Activity) (filters : String → Bool)
    (today : ℚ) :
    (activityArcs [] acts filters today).length =
      ((sortedActivities acts [] filters).filter
        (fun a => decide (¬(a.endDate < fullYearStartDate today ∨
          a.startDate > fullYearEndDate today)))).length ∧
    (∀ arc ∈ activityArcs [] acts filters today,
      arc.scopeRing = 0 ∧ arc.subLayer = 0) ∧
    (acts = [] → activityArcs [] acts filters today = []) ∧
    scopeRingBackgrounds [] = [] := by
  refine ⟨?_, ?_, ?_, by simp [scopeRingBackgrounds, List.insertionSort]⟩
  · simp only [activityArcs]
    exact length_filterMap_window _ _ _
  · intro arc harc
    obtain ⟨a, -, -, rfl⟩ := (mem_activityArcs [] acts filters today arc).mp harc
    constructor <;>
      simp [buildArc, layersToScopeConfigs, activityLayers, lookupLayerInfo,
        List.insertionSort]
  · rintro rfl
    simp [activityArcs, sortedActivities, filteredActivities, List.insertionSort]

/-- The arc emitted for wAct when the layer list is empty (radii follow
the rational convention 175 / 0 = 0). -/
def zArc : ActivityArc := ⟨wAct, 0, 0, 70, 68, -(3 / 2), 3 / 2⟩

lemma wheel_zero_layers_eval :
    activityArcs [] [wAct] (fun _ => true) 0 = [zArc] := by
  norm_num [activityArcs, sortedActivities, filteredActivities, layersToScopeConfigs,
    sortLE, activityLayers, allocScope, findSubLayer, laneScan, overlapsAt,
    lookupLayerInfo, buildArc, activitySpan, dateToAngle, fullYearStartDate,
    fullYearEndDate, msPerDay, minArcDegrees, getScopeConfigById, maxSubLayers,
    INNER_RADIUS, ACTIVITY_AREA_OUTER, WEEK_RING_INNER, WEEK_RING_OUTER,
    DAY_TICK_INNER, OUTER_RADIUS, FULL_VIEW_DAYS, wAct, zArc,
    List.insertionSort, List.orderedInsert, List.filterMap, List.filter,
    List.flatMap, List.find?, range_maxSubLayers]

/-- C7 witness: the zero-layer run on one concrete activity, with the
default band and sub-lane. -/
theorem claim_C7_amended_witness :
    zArc.scopeRing = 0 ∧ zArc.subLayer = 0 :=
  (claim_C7_amended [wAct] (fun _ => true) 0).2.1 zArc
    (by rw [wheel_zero_layers_eval]; exact List.mem_singleton.mpr rfl)

/-- Activities recorded by the per-scope allocation come from the
accumulator or from the processed list. -/
lemma allocScope_mem_src (g : List Activity) :
    ∀ assigned p, p ∈ allocScope assigned g → p ∈ assigned ∨ p.1 ∈ g := by
  induction g with
  | nil => exact fun assigned p hp => Or.inl (by simpa [allocScope] using hp)
  | cons a rest ih =>
    intro assigned p hp
    simp only [allocScope] at hp
    rcases ih (assigned ++ [(a, findSubLayer assigned a)]) p hp with h | h
    · rcases List.mem_append.mp h with h | h
      · exact Or.inl h
      · right
        obtain rfl : p = (a, findSubLayer assigned a) := by simpa using h
        exact List.mem_cons_self a rest
    · exact Or.inr (List.mem_cons_of_mem a h)

/-- C10: an activity that passes the scope filter but whose layer is not
among the visible scope configs (hidden or absent layer) is not dropped:
it has no entry in the layer map - it never enters the sub-lane scan -
and it is rendered through the default assignment, band 0 and sub-lane 0. -/
theorem claim_C10 (layers : List Layer) (acts : List Activity)
    (filters : String → Bool) (today : ℚ) (a : Activity)
    (ha : a ∈ acts) (hf : filters a.scope = true)
    (hwin : ¬(a.endDate < fullYearStartDate today ∨
      a.startDate > fullYearEndDate today))
    (hhidden : ∀ cfg ∈ layersToScopeConfigs layers, cfg.id ≠ a.scope)
    (hid : ∀ b ∈ acts, b.id = a.id → b.scope = a.scope) :
    lookupLayerInfo (activityLayers (layersToScopeConfigs layers)
      (sortedActivities acts layers filters)) a.id = none ∧
    ∃ arc ∈ activityArcs layers acts filters today,
      arc.activity = a ∧ arc.scopeRing = 0 ∧ arc.subLayer = 0 := by
  have hsortmem : a ∈ sortedActivities acts layers filters := by
    unfold sortedActivities
    rw [List.mem_insertionSort]
    exact List.mem_filter.mpr ⟨ha, hf⟩
  have hnone : lookupLayerInfo (activityLayers (layersToScopeConfigs layers)
      (sortedActivities acts layers filters)) a.id = none := by
    unfold lookupLayerInfo
    rw [List.find?_eq_none.mpr, Option.map_none']
    intro e he
    simp only [activityLayers, List.mem_flatMap, List.mem_map] at he
    obtain ⟨cfg, hcfg, p, hp, rfl⟩ := he
    rcases allocScope_mem_src _ [] p hp with h | h
    · simp at h
    · have hscope : p.1.scope = cfg.id := by
        have := List.mem_filter.mp h
        simpa using this.2
      have hpacts : p.1 ∈ acts := by
        have hmem := (List.mem_filter.mp h).1
        unfold sortedActivities at hmem
        rw [List.mem_insertionSort] at hmem
        exact (List.mem_filter.mp hmem).1
      simp only [beq_iff_eq]
      intro heq
      exact hhidden cfg hcfg (by rw [← hscope, hid p.1 hpacts heq])
  refine ⟨hnone, buildArc
      (activityLayers (layersToScopeConfigs layers) (sortedActivities acts layers filters))
      ((ACTIVITY_AREA_OUTER - INNER_RADIUS - 10) / (layers.length : ℚ))
      ((ACTIVITY_AREA_OUTER - INNER_RADIUS - 10) / (layers.length : ℚ) / 3)
      today a,
    (mem_activityArcs layers acts filters today _).mpr ⟨a, hsortmem, hwin, rfl⟩,
    buildArc_activity _ _ _ _ _, ?_, ?_⟩ <;>
  simp [buildArc, hnone]

/-- A hidden layer and an activity pointing at it. -/
def hidLayer : Layer := ⟨"LH", "Hidden layer", "#444444", 1, false⟩
def hidAct : Activity := ⟨"HA", 0, 0, "LH"⟩

/-- C10 witness: the concrete hidden-layer activity is rendered with the
default band 0 / sub-lane 0 and has no layer-map entry. -/
theorem claim_C10_witness :
    lookupLayerInfo (activityLayers (layersToScopeConfigs [hidLayer])
      (sortedActivities [hidAct] [hidLayer] (fun _ => true))) hidAct.id = none ∧
    ∃ arc ∈ activityArcs [hidLayer] [hidAct] (fun _ => true) 0,
      arc.activity = hidAct ∧ arc.scopeRing = 0 ∧ arc.subLayer = 0 :=
  claim_C10 [hidLayer] [hidAct] (fun _ => true) 0 hidAct
    (List.mem_singleton.mpr rfl) rfl
    (by norm_num [hidAct, fullYearStartDate, fullYearEndDate, msPerDay])
    (by simp [layersToScopeConfigs, hidLayer, List.insertionSort])
    (by
      intro b hb _
      have hb2 : b = hidAct := by simpa using hb
      rw [hb2])

/-- The comparator as a proposition. -/
lemma sortLE_iff (cfgs : List ScopeConfig) (a b : Activity) :
    sortLE cfgs a b = true ↔
      ((getScopeConfigById cfgs a.scope).ringIndex <
          (getScopeConfigById cfgs b.scope).ringIndex ∨
        ((getScopeConfigById cfgs a.scope).ringIndex =
            (getScopeConfigById cfgs b.scope).ringIndex ∧
          a.startDate ≤ b.startDate)) := by
  unfold sortLE
  by_cases h : (getScopeConfigById cfgs a.scope).ringIndex =
      (getScopeConfigById cfgs b.scope).ringIndex
  · rw [if_neg (not_not_intro h)]
    simp [h]
  · rw [if_pos h]
    simp [h]

lemma sortLE_total (cfgs : List ScopeConfig) (a b : Activity) :
    sortLE cfgs a b = true ∨ sortLE cfgs b a = true := by
  rw [sortLE_iff, sortLE_iff]
  rcases lt_trichotomy (getScopeConfigById cfgs a.scope).ringIndex
      (getScopeConfigById cfgs b.scope).ringIndex with h | h | h
  · exact Or.inl (Or.inl h)
  · rcases le_total a.startDate b.startDate with hq | hq
    · exact Or.inl (Or.inr ⟨h, hq⟩)
    · exact Or.inr (Or.inr ⟨h.symm, hq⟩)
  · exact Or.inr (Or.inl h)

lemma sortLE_trans (cfgs : List ScopeConfig) (a b c : Activity)
    (hab : sortLE cfgs a b = true) (hbc : sortLE cfgs b c = true) :
    sortLE cfgs a c = true := by
  rw [sortLE_iff] at hab hbc ⊢
  rcases hab with h1 | ⟨h1, h1q⟩ <;> rcases hbc with h2 | ⟨h2, h2q⟩
  · exact Or.inl (h1.trans h2)
  · exact Or.inl (h2 ▸ h1)
  · exact Or.inl (h1 ▸ h2)
  · exact Or.inr ⟨h1.trans h2, h1q.trans h2q⟩

/-- C9: the layout computation is a pure function - two runs over equal
inputs give equal arcs, week markers and rotation - and the activities
are processed in the fixed stable order: the sorted list is ordered by
the (ring, start date) comparator, is a permutation of the filtered
input, and every input-ordered pair that the comparator already accepts
(in particular every tie) keeps its relative input order. -/
theorem claim_C9 (layers : List Layer) (acts : List Activity)
    (filters : String → Bool) (today : ℚ) (layers2 : List Layer)
    (acts2 : List Activity) (filters2 : String → Bool) (today2 : ℚ)
    (hL : layers = layers2) (hA : acts = acts2) (hF : filters = filters2)
    (hT : today = today2) :
    activityArcs layers acts filters today =
      activityArcs layers2 acts2 filters2 today2 ∧
    (∀ hid mobile, targetRotation hid acts mobile today =
      targetRotation hid acts2 mobile today2) ∧
    (sortedActivities acts layers filters).Pairwise
      (fun a b => sortLE (layersToScopeConfigs layers) a b = true) ∧
    (sortedActivities acts layers filters).Perm
      (filteredActivities acts filters) ∧
    (∀ a b, [a, b].Sublist (filteredActivities acts filters) →
      sortLE (layersToScopeConfigs layers) a b = true →
      [a, b].Sublist (sortedActivities acts layers filters)) := by
  subst hL
  subst hA
  subst hF
  subst hT
  haveI : IsTotal Activity
      (fun a b => sortLE (layersToScopeConfigs layers) a b = true) :=
    ⟨sortLE_total (layersToScopeConfigs layers)⟩
  haveI : IsTrans Activity
      (fun a b => sortLE (layersToScopeConfigs layers) a b = true) :=
    ⟨sortLE_trans (layersToScopeConfigs layers)⟩
  refine ⟨rfl, fun _ _ => rfl, ?_, ?_, ?_⟩
  · exact List.sorted_insertionSort _ _
  · exact List.perm_insertionSort _ _
  · intro a b hsub hle
    exact List.pair_sublist_insertionSort hle hsub

/-- Two activities tied on ring and start date. -/
def tieActP : Activity := ⟨"p", 0, 5, "L0"⟩
def tieActQ : Activity := ⟨"q", 0, 7, "L0"⟩

/-- C9 witness: two activities tied on (ring, start date) keep their
input order through the sort. -/
theorem claim_C9_witness :
    [tieActP, tieActQ].Sublist
      (sortedActivities [tieActP, tieActQ] [wLayer] (fun _ => true)) := by
  have h := claim_C9 [wLayer] [tieActP, tieActQ] (fun _ => true) 0
    [wLayer] [tieActP, tieActQ] (fun _ => true) 0 rfl rfl rfl rfl
  refine h.2.2.2.2 tieActP tieActQ ?_ ?_
  · show [tieActP, tieActQ].Sublist (filteredActivities [tieActP, tieActQ] (fun _ => true))
    have : filteredActivities [tieActP, tieActQ] (fun _ => true) =
        [tieActP, tieActQ] := by
      simp [filteredActivities]
    rw [this]
  · norm_num [sortLE, getScopeConfigById, layersToScopeConfigs, wLayer,
      tieActP, tieActQ, List.insertionSort, List.orderedInsert, List.filter,
      List.find?]

/-! C8: ISO week numbering and week band generation. -/

lemma ceil_div_seven (n : ℤ) : ⌈((n : ℚ)) / 7⌉ = (n + 6) / 7 := by
  set q := (n + 6) / 7 with hq
  rw [Int.ceil_eq_iff]
  constructor
  · rw [show ((q : ℚ) - 1) = ((q - 1 : ℤ) : ℚ) by push_cast; ring]
    rw [lt_div_iff₀ (by norm_num : (0 : ℚ) < 7)]
    exact_mod_cast (by omega : (q - 1) * 7 < n)
  · rw [div_le_iff₀ (by norm_num : (0 : ℚ) < 7)]
    exact_mod_cast (by omega : n ≤ q * 7)

lemma weekday_bounds (g : ℤ) : 0 ≤ weekdayOf g ∧ weekdayOf g < 7 := by
  unfold weekdayOf
  omega

lemma monday_weekday (g : ℤ) : weekdayOf (mondayOnOrBefore g) = 1 := by
  simp only [mondayOnOrBefore, weekdayOf]
  omega

lemma monday_le (g : ℤ) : mondayOnOrBefore g ≤ g ∧ g ≤ mondayOnOrBefore g + 6 := by
  unfold mondayOnOrBefore weekdayOf
  omega

lemma thursday_shift (g : ℤ) :
    g + (4 - (if weekdayOf g = 0 then 7 else weekdayOf g)) = mondayOnOrBefore g + 3 := by
  unfold mondayOnOrBefore weekdayOf
  by_cases h : (g + 4) % 7 = 0
  · rw [if_pos h]
    omega
  · rw [if_neg h]
    omega

lemma thursday_weekday (g : ℤ) : weekdayOf (mondayOnOrBefore g + 3) = 4 := by
  simp only [mondayOnOrBefore, weekdayOf]
  omega

lemma getWeekNumberD_eq_iso (g : ℤ) : getWeekNumberD g = isoWeekNumberD g := by
  simp only [getWeekNumberD, isoWeekNumberD]
  rw [thursday_shift g]

lemma monday_adjust (s : ℤ) :
    (if weekdayOf s = 1 then s
      else s - (if weekdayOf s = 0 then 6 else weekdayOf s - 1)) =
      mondayOnOrBefore s := by
  unfold mondayOnOrBefore weekdayOf
  by_cases h1 : (s + 4) % 7 = 1
  · rw [if_pos h1]
    omega
  · rw [if_neg h1]
    by_cases h0 : (s + 4) % 7 = 0
    · rw [if_pos h0]
      omega
    · rw [if_neg h0]
      omega

lemma weekStartsFrom_mem (endDay : ℤ) :
    ∀ (fuel : ℕ) (cur : ℤ), (endDay + 1 - cur).toNat ≤ fuel →
      ∀ w ∈ weekStartsFrom endDay cur,
        (∃ k : ℕ, w = cur + 7 * k) ∧ w ≤ endDay := by
  intro fuel
  induction fuel with
  | zero =>
    intro cur hf w hw
    rw [weekStartsFrom, if_neg (by omega)] at hw
    exact absurd hw (List.not_mem_nil w)
  | succ fuel ih =>
    intro cur hf w hw
    rw [weekStartsFrom] at hw
    by_cases hc : cur ≤ endDay
    · rw [if_pos hc] at hw
      rcases List.mem_cons.mp hw with rfl | hw
      · exact ⟨⟨0, by ring⟩, hc⟩
      · obtain ⟨⟨k, hk⟩, hle⟩ := ih (cur + 7) (by omega) w hw
        exact ⟨⟨k + 1, by push_cast [hk]; ring⟩, hle⟩
    · rw [if_neg hc] at hw
      exact absurd hw (List.not_mem_nil w)

lemma weekStartsFrom_cover (endDay : ℤ) :
    ∀ (fuel : ℕ) (cur : ℤ), (endDay + 1 - cur).toNat ≤ fuel →
      ∀ day : ℤ, cur ≤ day → day ≤ endDay →
        ∃ w ∈ weekStartsFrom endDay cur, w ≤ day ∧ day ≤ w + 6 := by
  intro fuel
  induction fuel with
  | zero =>
    intro cur hf day h1 h2
    omega
  | succ fuel ih =>
    intro cur hf day h1 h2
    rw [weekStartsFrom, if_pos (by omega)]
    by_cases hnear : day ≤ cur + 6
    · exact ⟨cur, List.mem_cons_self _ _, h1, hnear⟩
    · obtain ⟨w, hw, hle1, hle2⟩ := ih (cur + 7) (by omega) day (by omega) h2
      exact ⟨w, List.mem_cons_of_mem _ hw, hle1, hle2⟩

lemma ceil_week_count (t ys : ℤ) :
    ⌈(((t - ys : ℤ) : ℚ) + 1) / 7⌉ = (t - ys + 1 + 6) / 7 := by
  rw [show (((t - ys : ℤ) : ℚ) + 1) = (((t - ys + 1 : ℤ)) : ℚ) by push_cast; ring]
  rw [ceil_div_seven]

lemma getWeekNumberD_int (g : ℤ) :
    getWeekNumberD g =
      (g + (4 - (if weekdayOf g = 0 then 7 else weekdayOf g)) -
        daysFromCivil (yearOfDays
          (g + (4 - (if weekdayOf g = 0 then 7 else weekdayOf g)))) 1 1 + 1 + 6) / 7 := by
  simp only [getWeekNumberD]
  rw [ceil_week_count]

lemma weekMarkers_eq (startDay endDay : ℤ) :
    weekMarkers startDay endDay =
      (weekStartsFrom endDay (mondayOnOrBefore startDay)).map
        (fun w => ⟨getWeekNumberD w, w, w + 6⟩) := by
  simp only [weekMarkers]
  rw [monday_adjust]

/-- C8: getWeekNumber computes the ISO-8601 week number: it equals the
spec-worded algorithm (shift to the Thursday of the Monday-based week,
then count weeks from that ISO year's January 1st with a ceiling
division), the shifted day really is the Thursday of the containing
Monday-based week, the week bands run one per 7-day step from the Monday
on or before the window start through the window end and cover every day
of that range, and the function agrees with ISO-8601 on year-boundary
spot checks. -/
theorem claim_C8 (y m d g startDay endDay : ℤ) :
    getWeekNumber y m d = isoWeekNumberD (daysFromCivil y m d) ∧
    getWeekNumberD g = isoWeekNumberD g ∧
    weekdayOf (mondayOnOrBefore g) = 1 ∧
    mondayOnOrBefore g ≤ g ∧ g ≤ mondayOnOrBefore g + 6 ∧
    weekdayOf (mondayOnOrBefore g + 3) = 4 ∧
    (weekMarkers startDay endDay).map (fun mk => mk.weekStart) =
      weekStartsFrom endDay (mondayOnOrBefore startDay) ∧
    (∀ mk ∈ weekMarkers startDay endDay,
      mk.weekNum = getWeekNumberD mk.weekStart ∧ mk.weekEnd = mk.weekStart + 6 ∧
      weekdayOf mk.weekStart = 1 ∧ mk.weekStart ≤ endDay ∧
      ∃ k : ℕ, mk.weekStart = mondayOnOrBefore startDay + 7 * k) ∧
    (∀ day : ℤ, mondayOnOrBefore startDay ≤ day → day ≤ endDay →
      ∃ mk ∈ weekMarkers startDay endDay,
        mk.weekStart ≤ day ∧ day ≤ mk.weekStart + 6) ∧
    getWeekNumber 2025 1 1 = 1 ∧ getWeekNumber 2024 12 30 = 1 ∧
    getWeekNumber 2021 1 1 = 53 ∧ getWeekNumber 2026 1 1 = 1 ∧
    getWeekNumber 2020 12 31 = 53 ∧ getWeekNumber 2025 6 15 = 24 := by
  refine ⟨getWeekNumberD_eq_iso _, getWeekNumberD_eq_iso _, monday_weekday g,
    (monday_le g).1, (monday_le g).2, thursday_weekday g, ?_, ?_, ?_, ?_, ?_, ?_, ?_, ?_, ?_⟩
  · rw [weekMarkers_eq, List.map_map]
    have hcomp : ((fun mk => mk.weekStart) ∘
        fun w => (⟨getWeekNumberD w, w, w + 6⟩ : WeekMarker)) = fun w : ℤ => w := by
      funext w
      rfl
    rw [hcomp]
    exact List.map_id' _
  · intro mk hmk
    rw [weekMarkers_eq] at hmk
    obtain ⟨w, hw, rfl⟩ := List.mem_map.mp hmk
    obtain ⟨⟨k, hk⟩, hle⟩ := weekStartsFrom_mem endDay
      ((endDay + 1 - mondayOnOrBefore startDay).toNat) (mondayOnOrBefore startDay)
      le_rfl w hw
    refine ⟨rfl, rfl, ?_, hle, k, hk⟩
    have hm := monday_weekday startDay
    simp only [weekdayOf] at hm ⊢
    omega
  · intro day h1 h2
    obtain ⟨w, hw, hle1, hle2⟩ := weekStartsFrom_cover endDay
      ((endDay + 1 - mondayOnOrBefore startDay).toNat) (mondayOnOrBefore startDay)
      le_rfl day h1 h2
    refine ⟨⟨getWeekNumberD w, w, w + 6⟩, ?_, hle1, hle2⟩
    rw [weekMarkers_eq]
    exact List.mem_map.mpr ⟨w, hw, rfl⟩
  · rw [getWeekNumber, getWeekNumberD_int]
    decide
  · rw [getWeekNumber, getWeekNumberD_int]
    decide
  · rw [getWeekNumber, getWeekNumberD_int]
    decide
  · rw [getWeekNumber, getWeekNumberD_int]
    decide
  · rw [getWeekNumber, getWeekNumberD_int]
    decide
  · rw [getWeekNumber, getWeekNumberD_int]
    decide

/-- C8 witness: the coverage clause at a concrete window - day 15 lies in
one of the generated week bands of the window from day 10 to day 40. -/
theorem claim_C8_witness :
    ∃ mk ∈ weekMarkers 10 40, mk.weekStart ≤ 15 ∧ (15 : ℤ) ≤ mk.weekStart + 6 :=
  (claim_C8 2025 1 1 0 10 40).2.2.2.2.2.2.2.2.1 15 (by decide) (by decide)
